import Mathlib

/-
  Shallow embedding of src/src/api/chains/ton/util/apiV3.ts (mytonwallet), the
  transaction-history synchronization adapter: fetchTransactions / parseRawTransaction,
  fetchAddressBook, fixAddressFormat, msToSec and the request construction.
  The remote service and transport are abstracted as explicit oracle parameters;
  JavaScript exceptions are modelled with Except, JavaScript undefined with Option.
-/

set_option maxHeartbeats 1000000

/-- Network selector, mirroring the ApiNetwork type used by the adapter. -/
inductive ApiNetwork where
  | mainnet
  | testnet
deriving DecidableEq

/-- Failures surfaced by the adapter. The constructor typeError models the generic
JavaScript runtime TypeError thrown by an undefined property access, the only failure the
analysed code itself produces; its payload records the key whose entry was absent. The
constructor lookupError models the distinct "Lookup error" classification that the
specification (section 7) demands for a missing address-book entry; it exists so that the
distinction the specification draws is expressible, and the embedded code never produces
it. The constructor transportError stands for a failure of the remote call itself. -/
inductive FetchError where
  | typeError (key : String)
  | lookupError (address : String)
  | transportError (message : String)
deriving DecidableEq

deriving instance DecidableEq for Except

/-- Entry of the inline address book (the TypeScript type
Record of string to a user_friendly field). -/
structure AddressBookEntry where
  user_friendly : String
deriving DecidableEq

/-- Address book: a JavaScript object mapping raw address strings to entries, modelled
as an association list in property insertion order with no duplicate keys. -/
abbrev AddressBook := List (String × AddressBookEntry)

/-- JavaScript property read addressBook[addr]: undefined (none) when absent. -/
def lookupBook (book : AddressBook) (addr : String) : Option AddressBookEntry :=
  book.lookup addr

/-- JavaScript expression addressBook[addr].user_friendly (lines 78-79 of apiV3.ts):
reading user_friendly from an absent entry throws a TypeError. -/
def readUserFriendly (book : AddressBook) (addr : String) : Except FetchError String :=
  match lookupBook book addr with
  | some entry => Except.ok entry.user_friendly
  | none => Except.error (FetchError.typeError addr)

/-- Body carried by a message (message_content.body, possibly absent). -/
structure MessageContent where
  body : Option String
deriving DecidableEq

/-- One raw message of a ledger event as decoded from the service response. A JavaScript
falsy source (null, undefined or the empty string) is modelled as the empty string. -/
structure RawMessage where
  source : String
  destination : String
  value : Nat
  hash : String
  message_content : Option MessageContent
deriving DecidableEq

/-- Compute phase of the event description; only the exit code is read. -/
structure ComputePhase where
  exit_code : Int
deriving DecidableEq

/-- Event description; only the compute phase is read. -/
structure TransactionDescription where
  compute_ph : ComputePhase
deriving DecidableEq

/-- One raw ledger event from the transactions endpoint: now is the seconds-resolution
timestamp, lt and hash form the composite id, total_fees the event-level fee. -/
structure RawTransaction where
  now : Int
  lt : String
  hash : String
  total_fees : Nat
  description : TransactionDescription
  in_msg : RawMessage
  out_msgs : List RawMessage
deriving DecidableEq

/-- getRawBody (lines 117-120): undefined when the message has no message_content,
otherwise message_content.body. -/
def getRawBody (msg : RawMessage) : Option String :=
  match msg.message_content with
  | none => none
  | some content => content.body

/-- Modelled from the spec: TONCOIN.slug, the fixed identifier of the native asset; the
config constant is outside the analysed sources and no claim depends on its value. -/
def TONCOIN_slug : String := "toncoin"

/-- Modelled from the spec: stringifyTxId lives in a module outside the analysed sources;
per the specification it builds the composite id from the logical-time/hash pair. -/
def stringifyTxId (lt hash : String) : String :=
  lt ++ ":" ++ hash

/-- Normalized transaction record (ApiTransactionExtra). Fields that omitUndefined drops
when undefined are modelled with their JavaScript-absent value: shouldHide is false where
the source leaves the field out (exit code zero) and body is none where the message
carries no content. -/
structure ApiTransactionExtra where
  txId : String
  timestamp : Int
  isIncoming : Bool
  fromAddress : String
  toAddress : String
  amount : Int
  slug : String
  fee : Nat
  inMsgHash : String
  normalizedAddress : String
  shouldHide : Bool
  body : Option String
deriving DecidableEq

/-- Classification of a ledger event (line 70): incoming iff the inbound message has a
truthy (non-empty) source. -/
def isIncomingTx (rawTx : RawTransaction) : Bool :=
  rawTx.in_msg.source != ""

/-- Relevant message list of an event (line 72): the singleton inbound message for an
incoming event, the outbound list for an outgoing one. -/
def relevantMsgs (rawTx : RawTransaction) : List RawMessage :=
  if isIncomingTx rawTx then [rawTx.in_msg] else rawTx.out_msgs

/-- Indexed map with JavaScript exception semantics: elements are processed left to
right and the first thrown error aborts the whole traversal, as in Array map over a
callback that may throw. -/
def mapExceptIdx (f : Nat → α → Except FetchError β) : Nat → List α → Except FetchError (List β)
  | _, [] => Except.ok []
  | i, a :: as =>
    match f i a with
    | Except.error e => Except.error e
    | Except.ok b =>
      match mapExceptIdx f (i + 1) as with
      | Except.error e => Except.error e
      | Except.ok bs => Except.ok (b :: bs)

/-- Unindexed variant of the same exception-propagating map. -/
def mapExcept (f : α → Except FetchError β) : List α → Except FetchError (List β)
  | [] => Except.ok []
  | a :: as =>
    match f a with
    | Except.error e => Except.error e
    | Except.ok b =>
      match mapExcept f as with
      | Except.error e => Except.error e
      | Except.ok bs => Except.ok (b :: bs)

/-- Body of the map callback inside parseRawTransaction (lines 76-98): resolves source
and destination through the inline address book, throwing on an absent entry, and builds
one record. msgsLength is the length of the enclosing relevant message list and i the
0-based position of the message in it. -/
def parseMessage (toBase64Address : String → String) (addressBook : AddressBook)
    (rawTx : RawTransaction) (msgsLength : Nat) (i : Nat) (msg : RawMessage) :
    Except FetchError ApiTransactionExtra :=
  match readUserFriendly addressBook msg.source with
  | Except.error e => Except.error e
  | Except.ok fromAddress =>
    match readUserFriendly addressBook msg.destination with
    | Except.error e => Except.error e
    | Except.ok toAddress =>
      Except.ok {
        txId := if msgsLength > 1 then
            stringifyTxId rawTx.lt rawTx.hash ++ ":" ++ toString (i + 1)
          else stringifyTxId rawTx.lt rawTx.hash
        timestamp := rawTx.now * 1000
        isIncoming := isIncomingTx rawTx
        fromAddress := fromAddress
        toAddress := toAddress
        amount := if isIncomingTx rawTx then (msg.value : Int) else -(msg.value : Int)
        slug := TONCOIN_slug
        fee := rawTx.total_fees
        inMsgHash := rawTx.in_msg.hash
        normalizedAddress := toBase64Address
          (if isIncomingTx rawTx then msg.source else msg.destination)
        shouldHide := rawTx.description.compute_ph.exit_code != 0
        body := getRawBody msg }

/-- parseRawTransaction (lines 55-99): classifies the event, selects the relevant
messages and maps each one to a record, propagating the first thrown lookup failure. The
toBase64Address normalization is defined outside the analysed sources and is taken as a
parameter. -/
def parseRawTransaction (toBase64Address : String → String) (rawTx : RawTransaction)
    (addressBook : AddressBook) : Except FetchError (List ApiTransactionExtra) :=
  let msgs := relevantMsgs rawTx
  if msgs.length = 0 then Except.ok []
  else mapExceptIdx (parseMessage toBase64Address addressBook rawTx msgs.length) 0 msgs

/-- msToSec (lines 154-156): Math.floor(ms / 1000), i.e. floor division toward negative
infinity; exact for every integer input within the double-precision safe range. -/
def msToSec (ms : Int) : Int :=
  Int.fdiv ms 1000

/-- Options record accepted by fetchTransactions (lines 19-27). Optional members are
modelled with Option; the address member is either one address or a list of them. -/
structure FetchTransactionsOptions where
  network : ApiNetwork
  address : String ⊕ List String
  limit : Nat
  fromTimestamp : Option Int
  toTimestamp : Option Int
  shouldIncludeFrom : Option Bool
  shouldIncludeTo : Option Bool

/-- Query object passed to the transactions endpoint (lines 36-42): none models a
member whose JavaScript value is undefined, which the transport leaves unset. -/
structure TransactionsRequest where
  account : String ⊕ List String
  limit : Nat
  start_utime : Option Int
  end_utime : Option Int
  sort : String

/-- Value of the JavaScript expression t && msToSec(t) + (!includeFlag ? 1 : 0) on
lines 39-40 (with shift -1 instead of 1 for the upper bound): a missing timestamp gives
undefined, the falsy timestamp 0 short-circuits to the number 0 itself, and any other
timestamp is converted and shifted. An absent boolean flag negates to true, so it
behaves like false. -/
def boundUtime (timestamp : Option Int) (includeFlag : Option Bool) (shift : Int) :
    Option Int :=
  match timestamp with
  | none => none
  | some ms =>
    if ms = 0 then some 0
    else some (msToSec ms + (if includeFlag.getD false then 0 else shift))

/-- Request constructed by fetchTransactions (lines 36-42). -/
def buildTransactionsRequest (options : FetchTransactionsOptions) : TransactionsRequest :=
  { account := options.address
    limit := options.limit
    start_utime := boundUtime options.fromTimestamp options.shouldIncludeFrom 1
    end_utime := boundUtime options.toTimestamp options.shouldIncludeTo (-1)
    sort := "desc" }

/-- Page returned by the transactions endpoint: raw events plus the inline address book. -/
structure TransactionsResponse where
  transactions : List RawTransaction
  address_book : AddressBook

/-- Processing fetchTransactions applies to a received page (lines 44-52): an empty page
yields the empty list, otherwise every event is parsed in order and the per-event record
lists are concatenated. -/
def fetchTransactionsResult (toBase64Address : String → String)
    (data : TransactionsResponse) : Except FetchError (List ApiTransactionExtra) :=
  if data.transactions.length = 0 then Except.ok []
  else
    match mapExcept (fun rawTx => parseRawTransaction toBase64Address rawTx data.address_book)
        data.transactions with
    | Except.error e => Except.error e
    | Except.ok lists => Except.ok lists.flatten

/-- fetchTransactions (lines 19-53) against an abstract remote service: builds the
request, lets the service answer (or fail with a transport error) and normalizes the
returned page. -/
def fetchTransactions (toBase64Address : String → String)
    (service : TransactionsRequest → Except FetchError TransactionsResponse)
    (options : FetchTransactionsOptions) : Except FetchError (List ApiTransactionExtra) :=
  match service (buildTransactionsRequest options) with
  | Except.error e => Except.error e
  | Except.ok data => fetchTransactionsResult toBase64Address data

/-- Batch size for address-book requests (line 17). -/
def ADDRESS_BOOK_CHUNK_SIZE : Nat := 128

/-- Modelled from the spec: split comes from a utility module outside the analysed
sources; per the specification it partitions the input into consecutive batches of at
most n elements each. The guard for batch size 0 is unreachable at the fixed size 128. -/
def split (l : List α) (n : Nat) : List (List α) :=
  if h : l.isEmpty ∨ n = 0 then []
  else l.take n :: split (l.drop n) n
termination_by l.length
decreasing_by
  rcases not_or.mp h with ⟨h1, h2⟩
  have h3 : l ≠ [] := by
    intro he
    exact h1 (by simp [he])
  have h4 : l.length ≠ 0 := fun hz => h3 (List.length_eq_zero.mp hz)
  simp only [List.length_drop]
  omega

/-- Setting one property on a JavaScript object modelled as a key-ordered association
list: an existing key keeps its position and receives the new value, and a new key is
appended at the end. -/
def objSet (book : AddressBook) (key : String) (val : AddressBookEntry) : AddressBook :=
  match book.lookup key with
  | some _ => book.map (fun p => if p.1 = key then (key, val) else p)
  | none => book ++ [(key, val)]

/-- Object.assign(acc, value): every own property of value is written onto acc in
property order. -/
def objAssign (acc value : AddressBook) : AddressBook :=
  value.foldl (fun b p => objSet b p.1 p.2) acc

/-- fetchAddressBook (lines 122-134) against an abstract per-batch service: the input is
split into batches of ADDRESS_BOOK_CHUNK_SIZE, one call is issued per batch, failure of
any batch fails the whole operation (Promise.all), and on success the batch responses
are merged with Object.assign into one book, starting from the empty object. The
concurrent batch calls are modelled in batch order, which is also the order in which the
merge processes the responses. -/
def fetchAddressBook (service : List String → Except FetchError AddressBook)
    (addresses : List String) : Except FetchError AddressBook :=
  match mapExcept service (split addresses ADDRESS_BOOK_CHUNK_SIZE) with
  | Except.error e => Except.error e
  | Except.ok results => Except.ok (results.foldl objAssign [])

/-- Response of the addressBook endpoint as read by fixAddressFormat: an address_book
member mapping each requested address directly to its human-readable string. -/
structure AddressBookResponse where
  address_book : List (String × String)

/-- fixAddressFormat (lines 136-139) against an abstract service: requests the one
address and reads the address_book entry keyed by exactly that address string; an absent
key gives the JavaScript undefined (none) without any failure. -/
def fixAddressFormat (service : String → Except FetchError AddressBookResponse)
    (address : String) : Except FetchError (Option String) :=
  match service address with
  | Except.error e => Except.error e
  | Except.ok result => Except.ok (result.address_book.lookup address)

/-! Concrete inputs used by the closed counterexample and witness theorems below. -/

/-- Address book resolving the two endpoint addresses A and B. -/
def witBook : AddressBook :=
  [("A", { user_friendly := "AF" }), ("B", { user_friendly := "BF" })]

/-- Incoming ledger event: the inbound message has the non-empty source A, carries the
value 5 to destination B, and the compute phase exited with code 0. -/
def witTxIn : RawTransaction :=
  { now := 1700000000
    lt := "7"
    hash := "h"
    total_fees := 2
    description := { compute_ph := { exit_code := 0 } }
    in_msg := { source := "A", destination := "B", value := 5, hash := "ih",
                message_content := none }
    out_msgs := [] }

/-- The single record witTxIn parses to against witBook with the identity
normalization. -/
def witRecIn : ApiTransactionExtra :=
  { txId := "7:h"
    timestamp := 1700000000000
    isIncoming := true
    fromAddress := "AF"
    toAddress := "BF"
    amount := 5
    slug := "toncoin"
    fee := 2
    inMsgHash := "ih"
    normalizedAddress := "A"
    shouldHide := false
    body := none }

/-- Outgoing ledger event with no outbound messages: the inbound source is empty and
out_msgs is empty, so the event has zero relevant messages. -/
def witTxOut0 : RawTransaction :=
  { now := 1700000001
    lt := "8"
    hash := "g"
    total_fees := 3
    description := { compute_ph := { exit_code := 0 } }
    in_msg := { source := "", destination := "B", value := 1, hash := "ig",
                message_content := none }
    out_msgs := [] }

/-- Outgoing ledger event with two outbound messages of values 3 and 7. -/
def cexTxMulti : RawTransaction :=
  { now := 1700000002
    lt := "77"
    hash := "HH"
    total_fees := 9
    description := { compute_ph := { exit_code := 0 } }
    in_msg := { source := "", destination := "W", value := 0, hash := "im",
                message_content := none }
    out_msgs := [
      { source := "W", destination := "D1", value := 3, hash := "m1",
        message_content := none },
      { source := "W", destination := "D2", value := 7, hash := "m2",
        message_content := none }] }

/-- Address book covering every endpoint of cexTxMulti. -/
def cexBookMulti : AddressBook :=
  [("W", { user_friendly := "WF" }), ("D1", { user_friendly := "D1F" }),
   ("D2", { user_friendly := "D2F" })]

/-- Incoming ledger event whose inbound message carries the value 0. -/
def cexTxZero : RawTransaction :=
  { now := 1700000003
    lt := "9"
    hash := "z"
    total_fees := 1
    description := { compute_ph := { exit_code := 0 } }
    in_msg := { source := "A", destination := "B", value := 0, hash := "iz",
                message_content := none }
    out_msgs := [] }

/-- Options with a negative millisecond lower bound, inclusive on both sides. -/
def cexOptsNeg : FetchTransactionsOptions :=
  { network := ApiNetwork.mainnet
    address := Sum.inl "addr"
    limit := 10
    fromTimestamp := some (-1)
    toTimestamp := none
    shouldIncludeFrom := some true
    shouldIncludeTo := none }

/-- Options whose millisecond bounds are both exactly 0, with exclusive flags. -/
def cexOptsZero : FetchTransactionsOptions :=
  { network := ApiNetwork.mainnet
    address := Sum.inl "addr"
    limit := 10
    fromTimestamp := some 0
    toTimestamp := some 0
    shouldIncludeFrom := some false
    shouldIncludeTo := some false }

/-- Options with ordinary positive bounds and exclusive flags on both sides. -/
def witOptsPos : FetchTransactionsOptions :=
  { network := ApiNetwork.mainnet
    address := Sum.inl "addr"
    limit := 10
    fromTimestamp := some 5000
    toTimestamp := some 9000
    shouldIncludeFrom := some false
    shouldIncludeTo := some false }

/-- Transactions service returning an empty page with an empty inline book. -/
def witServiceEmptyPage : TransactionsRequest → Except FetchError TransactionsResponse :=
  fun _ => Except.ok { transactions := [], address_book := [] }

/-- Address-book service answering every batch with one entry per requested address,
formed by appending F to the address. -/
def witBookService : List String → Except FetchError AddressBook :=
  fun chunk => Except.ok (chunk.map (fun a => (a, { user_friendly := a ++ "F" })))

/-- Address-book service failing every batch with a transport error. -/
def cexFailingService : List String → Except FetchError AddressBook :=
  fun _ => Except.error (FetchError.transportError "down")

/-- Single-address service whose response book contains only the key P. -/
def witService7 : String → Except FetchError AddressBookResponse :=
  fun _ => Except.ok { address_book := [("P", "PF")] }

/-- Transaction page holding one incoming event together with an empty inline address
book, so that the endpoints of the event cannot be resolved. -/
def witPageBad : TransactionsResponse :=
  { transactions := [witTxIn], address_book := [] }

/-- Transactions service answering every request with witPageBad. -/
def witServiceBad : TransactionsRequest → Except FetchError TransactionsResponse :=
  fun _ => Except.ok witPageBad

/-- Three distinct addresses, fitting in one batch. -/
def witAddrs : List String := ["a", "b", "c"]

/-- One address, for the failing-batch witness. -/
def witAddrs9 : List String := ["x"]

/-! Helper lemmas about the exception-propagating maps. -/

/-- A successful indexed traversal yields one output element per input element. -/
theorem mapExceptIdx_ok_length (f : Nat → α → Except FetchError β) :
    ∀ (l : List α) (i : Nat) (out : List β),
      mapExceptIdx f i l = Except.ok out → out.length = l.length := by
  intro l
  induction l with
  | nil =>
    intro i out h
    simp only [mapExceptIdx] at h
    cases h
    rfl
  | cons a as ih =>
    intro i out h
    simp only [mapExceptIdx] at h
    cases hfa : f i a with
    | error e => rw [hfa] at h; cases h
    | ok b =>
      rw [hfa] at h
      cases hrec : mapExceptIdx f (i + 1) as with
      | error e => rw [hrec] at h; cases h
      | ok bs =>
        rw [hrec] at h
        cases h
        simp [ih (i + 1) bs hrec]

/-- A successful indexed traversal applies the callback at position j to input j with
index i + j and produces output j. -/
theorem mapExceptIdx_ok_get (f : Nat → α → Except FetchError β) :
    ∀ (l : List α) (i : Nat) (out : List β),
      mapExceptIdx f i l = Except.ok out →
      ∀ (j : Nat) (hj : j < l.length) (hj2 : j < out.length),
        f (i + j) (l.get ⟨j, hj⟩) = Except.ok (out.get ⟨j, hj2⟩) := by
  intro l
  induction l with
  | nil =>
    intro i out h j hj hj2
    exact absurd hj (by simp)
  | cons a as ih =>
    intro i out h j hj hj2
    simp only [mapExceptIdx] at h
    cases hfa : f i a with
    | error e => rw [hfa] at h; cases h
    | ok b =>
      rw [hfa] at h
      cases hrec : mapExceptIdx f (i + 1) as with
      | error e => rw [hrec] at h; cases h
      | ok bs =>
        rw [hrec] at h
        cases h
        cases j with
        | zero => simpa using hfa
        | succ j =>
          have hj3 : j < as.length := by simpa using hj
          have hj4 : j < bs.length := by simpa using hj2
          have := ih (i + 1) bs hrec j hj3 hj4
          simpa [Nat.add_assoc, Nat.add_comm 1 j] using this

/-- A failed indexed traversal owes its error to the callback at some position. -/
theorem mapExceptIdx_error_get (f : Nat → α → Except FetchError β) :
    ∀ (l : List α) (i : Nat) (e : FetchError),
      mapExceptIdx f i l = Except.error e →
      ∃ (j : Nat) (hj : j < l.length), f (i + j) (l.get ⟨j, hj⟩) = Except.error e := by
  intro l
  induction l with
  | nil =>
    intro i e h
    simp only [mapExceptIdx] at h
    cases h
  | cons a as ih =>
    intro i e h
    simp only [mapExceptIdx] at h
    cases hfa : f i a with
    | error e0 =>
      rw [hfa] at h
      cases h
      exact ⟨0, by simp, by simpa using hfa⟩
    | ok b =>
      rw [hfa] at h
      cases hrec : mapExceptIdx f (i + 1) as with
      | error e0 =>
        rw [hrec] at h
        cases h
        obtain ⟨j, hj, hfj⟩ := ih (i + 1) e hrec
        refine ⟨j + 1, by simpa using hj, ?_⟩
        simpa [Nat.add_assoc, Nat.add_comm 1 j] using hfj
      | ok bs => rw [hrec] at h; cases h

/-- A successful unindexed traversal relates inputs and outputs pointwise. -/
theorem mapExcept_ok_forall₂ (f : α → Except FetchError β) :
    ∀ (l : List α) (out : List β),
      mapExcept f l = Except.ok out →
      List.Forall₂ (fun a b => f a = Except.ok b) l out := by
  intro l
  induction l with
  | nil =>
    intro out h
    simp only [mapExcept] at h
    cases h
    exact List.Forall₂.nil
  | cons a as ih =>
    intro out h
    simp only [mapExcept] at h
    cases hfa : f a with
    | error e => rw [hfa] at h; cases h
    | ok b =>
      rw [hfa] at h
      cases hrec : mapExcept f as with
      | error e => rw [hrec] at h; cases h
      | ok bs =>
        rw [hrec] at h
        cases h
        exact List.Forall₂.cons hfa (ih bs hrec)

/-- If the callback succeeds on every element, the unindexed traversal succeeds. -/
theorem mapExcept_ok_of_forall (f : α → Except FetchError β) :
    ∀ (l : List α), (∀ a ∈ l, ∃ b, f a = Except.ok b) →
      ∃ out, mapExcept f l = Except.ok out := by
  intro l
  induction l with
  | nil => intro _; exact ⟨[], rfl⟩
  | cons a as ih =>
    intro hall
    obtain ⟨b, hb⟩ := hall a (List.mem_cons_self a as)
    obtain ⟨bs, hbs⟩ := ih (fun x hx => hall x (List.mem_cons_of_mem a hx))
    refine ⟨b :: bs, ?_⟩
    simp only [mapExcept, hb, hbs]

/-- A failed unindexed traversal owes its error to the callback on some element. -/
theorem mapExcept_error_mem (f : α → Except FetchError β) :
    ∀ (l : List α) (e : FetchError),
      mapExcept f l = Except.error e → ∃ a ∈ l, f a = Except.error e := by
  intro l
  induction l with
  | nil =>
    intro e h
    simp only [mapExcept] at h
    cases h
  | cons a as ih =>
    intro e h
    simp only [mapExcept] at h
    cases hfa : f a with
    | error e0 =>
      rw [hfa] at h
      cases h
      exact ⟨a, List.mem_cons_self a as, hfa⟩
    | ok b =>
      rw [hfa] at h
      cases hrec : mapExcept f as with
      | error e0 =>
        rw [hrec] at h
        cases h
        obtain ⟨x, hx, hfx⟩ := ih e hrec
        exact ⟨x, List.mem_cons_of_mem a hx, hfx⟩
      | ok bs => rw [hrec] at h; cases h

/-! Helper lemmas about parseMessage and parseRawTransaction. -/

/-- Appending the empty string on the right is the identity. -/
theorem string_append_empty (s : String) : s ++ "" = s := by
  simp

/-- Fields of a successfully built record that do not depend on the address-book
values: id scheme, timestamp, classification, amount, fee, inbound hash, hide flag and
body are exactly the expressions of lines 82-97 of the source. -/
theorem parseMessage_ok_fields (toBase64Address : String → String)
    (addressBook : AddressBook) (rawTx : RawTransaction) (msgsLength i : Nat)
    (msg : RawMessage) (r : ApiTransactionExtra)
    (h : parseMessage toBase64Address addressBook rawTx msgsLength i msg = Except.ok r) :
    r.txId = (if msgsLength > 1 then
        stringifyTxId rawTx.lt rawTx.hash ++ ":" ++ toString (i + 1)
      else stringifyTxId rawTx.lt rawTx.hash) ∧
    r.timestamp = rawTx.now * 1000 ∧
    r.isIncoming = isIncomingTx rawTx ∧
    r.amount = (if isIncomingTx rawTx then (msg.value : Int) else -(msg.value : Int)) ∧
    r.fee = rawTx.total_fees ∧
    r.inMsgHash = rawTx.in_msg.hash ∧
    r.shouldHide = (rawTx.description.compute_ph.exit_code != 0) ∧
    r.body = getRawBody msg := by
  unfold parseMessage at h
  cases hsrc : readUserFriendly addressBook msg.source with
  | error e => rw [hsrc] at h; cases h
  | ok fromAddress =>
    rw [hsrc] at h
    cases hdst : readUserFriendly addressBook msg.destination with
    | error e => rw [hdst] at h; cases h
    | ok toAddress =>
      rw [hdst] at h
      cases h
      refine ⟨rfl, rfl, rfl, rfl, rfl, rfl, rfl, rfl⟩

/-- Every error parseMessage produces is a generic type error. -/
theorem parseMessage_error_typeError (toBase64Address : String → String)
    (addressBook : AddressBook) (rawTx : RawTransaction) (msgsLength i : Nat)
    (msg : RawMessage) (e : FetchError)
    (h : parseMessage toBase64Address addressBook rawTx msgsLength i msg = Except.error e) :
    ∃ key, e = FetchError.typeError key := by
  unfold parseMessage at h
  cases hsrc : readUserFriendly addressBook msg.source with
  | error e0 =>
    rw [hsrc] at h
    cases h
    unfold readUserFriendly at hsrc
    cases hb : lookupBook addressBook msg.source with
    | some entry => rw [hb] at hsrc; cases hsrc
    | none =>
      rw [hb] at hsrc
      cases hsrc
      exact ⟨msg.source, rfl⟩
  | ok fromAddress =>
    rw [hsrc] at h
    cases hdst : readUserFriendly addressBook msg.destination with
    | error e0 =>
      rw [hdst] at h
      cases h
      unfold readUserFriendly at hdst
      cases hb : lookupBook addressBook msg.destination with
      | some entry => rw [hb] at hdst; cases hdst
      | none =>
        rw [hb] at hdst
        cases hdst
        exact ⟨msg.destination, rfl⟩
    | ok toAddress => rw [hdst] at h; cases h

/-- When the source or destination of the message is absent from the book, parseMessage
throws. -/
theorem parseMessage_error_of_lookup (toBase64Address : String → String)
    (addressBook : AddressBook) (rawTx : RawTransaction) (msgsLength i : Nat)
    (msg : RawMessage)
    (h : lookupBook addressBook msg.source = none ∨
         lookupBook addressBook msg.destination = none) :
    ∃ e, parseMessage toBase64Address addressBook rawTx msgsLength i msg
      = Except.error e := by
  unfold parseMessage
  cases hsrc : readUserFriendly addressBook msg.source with
  | error e => exact ⟨e, rfl⟩
  | ok fromAddress =>
    cases hdst : readUserFriendly addressBook msg.destination with
    | error e => exact ⟨e, rfl⟩
    | ok toAddress =>
      exfalso
      unfold readUserFriendly at hsrc hdst
      rcases h with h | h
      · rw [h] at hsrc
        cases hsrc
      · rw [h] at hdst
        cases hdst

/-- A successful parse yields one record per relevant message. -/
theorem parseRawTransaction_ok_length (toBase64Address : String → String)
    (rawTx : RawTransaction) (addressBook : AddressBook)
    (records : List ApiTransactionExtra)
    (h : parseRawTransaction toBase64Address rawTx addressBook = Except.ok records) :
    records.length = (relevantMsgs rawTx).length := by
  unfold parseRawTransaction at h
  by_cases hz : (relevantMsgs rawTx).length = 0
  · rw [if_pos hz] at h
    cases h
    simp [hz]
  · rw [if_neg hz] at h
    exact mapExceptIdx_ok_length _ _ _ _ h

/-- A successful parse builds the record at position j from the relevant message at
position j, at index j. -/
theorem parseRawTransaction_ok_get (toBase64Address : String → String)
    (rawTx : RawTransaction) (addressBook : AddressBook)
    (records : List ApiTransactionExtra)
    (h : parseRawTransaction toBase64Address rawTx addressBook = Except.ok records)
    (j : Nat) (hj : j < records.length) (hj2 : j < (relevantMsgs rawTx).length) :
    parseMessage toBase64Address addressBook rawTx (relevantMsgs rawTx).length j
        ((relevantMsgs rawTx).get ⟨j, hj2⟩) = Except.ok (records.get ⟨j, hj⟩) := by
  unfold parseRawTransaction at h
  by_cases hz : (relevantMsgs rawTx).length = 0
  · omega
  · rw [if_neg hz] at h
    have := mapExceptIdx_ok_get _ _ _ _ h j hj2 hj
    simpa using this

/-- An event with no relevant messages parses to the empty record list. -/
theorem parseRawTransaction_of_no_msgs (toBase64Address : String → String)
    (rawTx : RawTransaction) (addressBook : AddressBook)
    (h : relevantMsgs rawTx = []) :
    parseRawTransaction toBase64Address rawTx addressBook = Except.ok [] := by
  unfold parseRawTransaction
  rw [if_pos (by simp [h])]

/-- Every error parseRawTransaction produces is a generic type error. -/
theorem parseRawTransaction_error_typeError (toBase64Address : String → String)
    (rawTx : RawTransaction) (addressBook : AddressBook) (e : FetchError)
    (h : parseRawTransaction toBase64Address rawTx addressBook = Except.error e) :
    ∃ key, e = FetchError.typeError key := by
  unfold parseRawTransaction at h
  by_cases hz : (relevantMsgs rawTx).length = 0
  · rw [if_pos hz] at h; cases h
  · rw [if_neg hz] at h
    obtain ⟨j, hj, hfj⟩ := mapExceptIdx_error_get _ _ _ _ h
    exact parseMessage_error_typeError _ _ _ _ _ _ _ hfj

/-- When some relevant message references an address absent from the inline book, the
parse fails, and it fails with a generic type error. -/
theorem parseRawTransaction_error_of_bad_lookup (toBase64Address : String → String)
    (rawTx : RawTransaction) (addressBook : AddressBook)
    (h : ∃ msg ∈ relevantMsgs rawTx,
        lookupBook addressBook msg.source = none ∨
        lookupBook addressBook msg.destination = none) :
    ∃ key, parseRawTransaction toBase64Address rawTx addressBook
      = Except.error (FetchError.typeError key) := by
  obtain ⟨msg, hmem, hbad⟩ := h
  obtain ⟨⟨j, hj⟩, hget⟩ := List.mem_iff_get.mp hmem
  have hz : (relevantMsgs rawTx).length ≠ 0 := by
    intro h0
    rw [List.length_eq_zero.mp h0] at hmem
    cases hmem
  cases hres : parseRawTransaction toBase64Address rawTx addressBook with
  | ok records =>
    exfalso
    have hlen := parseRawTransaction_ok_length _ _ _ _ hres
    have hj2 : j < records.length := by omega
    have hok := parseRawTransaction_ok_get _ _ _ _ hres j hj2 hj
    rw [hget] at hok
    obtain ⟨e, he⟩ := parseMessage_error_of_lookup toBase64Address addressBook rawTx
      (relevantMsgs rawTx).length j msg hbad
    rw [he] at hok
    cases hok
  | error e =>
    obtain ⟨key, hkey⟩ := parseRawTransaction_error_typeError _ _ _ _ hres
    exact ⟨key, by rw [hkey]⟩

/-! Helper lemmas about fetchTransactionsResult. -/

/-- A pointwise relation between two lists gives an image for every member of the
first. -/
theorem forall₂_mem_left {α β : Type} {R : α → β → Prop} :
    ∀ {l : List α} {out : List β}, List.Forall₂ R l out → ∀ a ∈ l, ∃ b, R a b := by
  intro l out h
  induction h with
  | nil => intro a ha; cases ha
  | cons hR hrest ih =>
    intro a ha
    rcases List.mem_cons.mp ha with rfl | ha2
    · exact ⟨_, hR⟩
    · exact ih a ha2

/-- An empty transaction page normalizes to the empty record list without error. -/
theorem fetchTransactionsResult_empty (toBase64Address : String → String)
    (book : AddressBook) :
    fetchTransactionsResult toBase64Address { transactions := [], address_book := book }
      = Except.ok [] := rfl

/-- When some event of the page references an address absent from the inline book, the
whole normalization fails with a generic type error. -/
theorem fetchTransactionsResult_error_of_bad_lookup (toBase64Address : String → String)
    (data : TransactionsResponse)
    (h : ∃ tx ∈ data.transactions, ∃ msg ∈ relevantMsgs tx,
        lookupBook data.address_book msg.source = none ∨
        lookupBook data.address_book msg.destination = none) :
    ∃ key, fetchTransactionsResult toBase64Address data
      = Except.error (FetchError.typeError key) := by
  obtain ⟨tx, htx, hbad⟩ := h
  unfold fetchTransactionsResult
  have hz : data.transactions.length ≠ 0 := by
    intro h0
    rw [List.length_eq_zero.mp h0] at htx
    cases htx
  rw [if_neg hz]
  cases hm : mapExcept
      (fun rawTx => parseRawTransaction toBase64Address rawTx data.address_book)
      data.transactions with
  | ok lists =>
    exfalso
    have hf := mapExcept_ok_forall₂ _ _ _ hm
    obtain ⟨records, hrec⟩ := forall₂_mem_left hf tx htx
    obtain ⟨key, hkey⟩ := parseRawTransaction_error_of_bad_lookup toBase64Address tx
      data.address_book hbad
    rw [hkey] at hrec
    cases hrec
  | error e =>
    obtain ⟨tx2, _, htx2⟩ := mapExcept_error_mem _ _ _ hm
    obtain ⟨key, hkey⟩ := parseRawTransaction_error_typeError _ _ _ _ htx2
    exact ⟨key, by rw [hkey]⟩

/-! Helper lemmas about split and the Object.assign merge. -/

/-- Splitting the empty list gives no batches. -/
theorem split_nil (n : Nat) : split ([] : List α) n = [] := by
  rw [split]
  simp

/-- Splitting a nonempty list with a nonzero batch size peels off one batch. -/
theorem split_cons (l : List α) (n : Nat) (h1 : l ≠ []) (h2 : n ≠ 0) :
    split l n = l.take n :: split (l.drop n) n := by
  rw [split]
  have hcond : ¬(l.isEmpty = true ∨ n = 0) := by
    rintro (h | h)
    · exact h1 (List.isEmpty_iff.mp h)
    · exact h2 h
  rw [dif_neg hcond]

/-- The batches of split concatenate back to the input list. -/
theorem split_flatten (n : Nat) (hn : n ≠ 0) (l : List α) :
    (split l n).flatten = l := by
  have H : ∀ (k : Nat) (m : List α), m.length ≤ k → (split m n).flatten = m := by
    intro k
    induction k with
    | zero =>
      intro m hm
      have hnil : m = [] := by
        cases m with
        | nil => rfl
        | cons a as => simp at hm
      subst hnil
      rw [split_nil]
      rfl
    | succ k ih =>
      intro m hm
      by_cases he : m = []
      · subst he
        rw [split_nil]
        rfl
      · rw [split_cons m n he hn]
        have hlen : m.length ≠ 0 := fun hz => he (List.length_eq_zero.mp hz)
        have hdrop : (m.drop n).length ≤ k := by
          simp only [List.length_drop]
          omega
        rw [List.flatten_cons, ih (m.drop n) hdrop]
        exact List.take_append_drop n m
  exact H l.length l le_rfl

/-- The number of batches produced by split at batch size n + 1 is the length of the
input divided by n + 1, rounded up. -/
theorem split_length (n : Nat) (l : List α) :
    (split l (n + 1)).length = (l.length + n) / (n + 1) := by
  have H : ∀ (k : Nat) (m : List α), m.length ≤ k →
      (split m (n + 1)).length = (m.length + n) / (n + 1) := by
    intro k
    induction k with
    | zero =>
      intro m hm
      have hnil : m = [] := by
        cases m with
        | nil => rfl
        | cons a as => simp at hm
      subst hnil
      rw [split_nil]
      simp [Nat.div_eq_of_lt (by omega : n < n + 1)]
    | succ k ih =>
      intro m hm
      by_cases he : m = []
      · subst he
        rw [split_nil]
        simp [Nat.div_eq_of_lt (by omega : n < n + 1)]
      · rw [split_cons m (n + 1) he (by omega)]
        have hlen : m.length ≠ 0 := fun hz => he (List.length_eq_zero.mp hz)
        have hdrop : (m.drop (n + 1)).length ≤ k := by
          simp only [List.length_drop]
          omega
        rw [List.length_cons, ih (m.drop (n + 1)) hdrop]
        simp only [List.length_drop]
        by_cases hN : m.length ≤ n + 1
        · have h0 : m.length - (n + 1) = 0 := by omega
          rw [h0]
          have h1 : (0 + n) / (n + 1) = 0 := Nat.div_eq_of_lt (by omega)
          have h2 : m.length + n = (m.length - 1) + (n + 1) := by omega
          have h3 : (m.length - 1) / (n + 1) = 0 := Nat.div_eq_of_lt (by omega)
          rw [h1, h2, Nat.add_div_right _ (by omega : 0 < n + 1), h3]
        · have h0 : m.length - (n + 1) + n = m.length - 1 := by omega
          rw [h0]
          have h1 : m.length + n = (m.length - 1) + (n + 1) := by omega
          rw [h1, Nat.add_div_right _ (by omega : 0 < n + 1)]
  exact H l.length l le_rfl

/-- An association-list lookup fails exactly when the key is not among the keys. -/
theorem lookup_eq_none_iff {β : Type} (book : List (String × β)) (a : String) :
    book.lookup a = none ↔ a ∉ book.map Prod.fst := by
  induction book with
  | nil => simp
  | cons p es ih =>
    obtain ⟨k, v⟩ := p
    by_cases hak : a = k
    · subst hak
      simp [List.lookup]
    · have hb : (a == k) = false := beq_eq_false_iff_ne.mpr hak
      simp [List.lookup, hb, hak, ih]

/-- Writing a property whose key is not yet present appends it. -/
theorem objSet_not_mem (book : AddressBook) (key : String) (val : AddressBookEntry)
    (h : key ∉ book.map Prod.fst) : objSet book key val = book ++ [(key, val)] := by
  unfold objSet
  rw [(lookup_eq_none_iff book key).mpr h]

/-- Assigning an object whose keys are fresh for the accumulator and pairwise distinct
appends its properties. -/
theorem objAssign_of_disjoint : ∀ (v acc : AddressBook),
    (v.map Prod.fst).Nodup → (∀ k ∈ v.map Prod.fst, k ∉ acc.map Prod.fst) →
    objAssign acc v = acc ++ v := by
  intro v
  induction v with
  | nil =>
    intro acc _ _
    simp [objAssign]
  | cons p rest ih =>
    intro acc hnd hdis
    have hhead : p.1 ∉ acc.map Prod.fst := hdis p.1 (by simp)
    have hnd2 : (rest.map Prod.fst).Nodup := by
      rw [List.map_cons] at hnd
      exact (List.nodup_cons.mp hnd).2
    have hne : p.1 ∉ rest.map Prod.fst := by
      rw [List.map_cons] at hnd
      exact (List.nodup_cons.mp hnd).1
    have hdis2 : ∀ k ∈ rest.map Prod.fst, k ∉ (acc ++ [p]).map Prod.fst := by
      intro k hk
      rw [List.map_append, List.mem_append]
      rintro (hka | hkp)
      · exact hdis k (by simp [hk]) hka
      · have : k = p.1 := by simpa using hkp
        subst this
        exact hne hk
    calc objAssign acc (p :: rest)
        = objAssign (objSet acc p.1 p.2) rest := by
          unfold objAssign
          rw [List.foldl_cons]
      _ = objAssign (acc ++ [p]) rest := by
          rw [objSet_not_mem acc p.1 p.2 hhead]
      _ = (acc ++ [p]) ++ rest := ih (acc ++ [p]) hnd2 hdis2
      _ = acc ++ p :: rest := by simp

/-- Folding Object.assign over responses with globally distinct keys concatenates
them. -/
theorem foldl_objAssign : ∀ (books : List AddressBook) (acc : AddressBook),
    ((acc ++ books.flatten).map Prod.fst).Nodup →
    books.foldl objAssign acc = acc ++ books.flatten := by
  intro books
  induction books with
  | nil =>
    intro acc _
    simp
  | cons b rest ih =>
    intro acc hnd
    rw [List.flatten_cons] at hnd
    have hnd2 : ((acc ++ b) ++ rest.flatten).map Prod.fst |>.Nodup := by
      rw [List.append_assoc]
      exact hnd
    have hb : objAssign acc b = acc ++ b := by
      apply objAssign_of_disjoint
      · rw [List.map_append, List.map_append, List.nodup_append] at hnd
        rcases hnd with ⟨_, hnd1, _⟩
        rw [List.nodup_append] at hnd1
        exact hnd1.1
      · intro k hk hka
        rw [List.map_append, List.map_append, List.nodup_append] at hnd
        rcases hnd with ⟨_, _, hdisj⟩
        exact hdisj hka (by rw [List.mem_append]; exact Or.inl hk)
    rw [List.foldl_cons, hb, ih (acc ++ b) hnd2, List.flatten_cons, List.append_assoc]

/-- The pointwise statement that every batch response is keyed by its batch makes the
key lists of the responses equal to the batches. -/
theorem forall₂_keys_eq {S : Type} :
    ∀ {chunks : List (List String)} {books : List (List (String × S))},
    List.Forall₂ (fun c b => List.map Prod.fst b = c) chunks books →
    books.map (List.map Prod.fst) = chunks := by
  intro chunks books h
  induction h with
  | nil => rfl
  | cons hcb hrest ih => simp [ih, hcb]

/-! Claim theorems. -/

/-- Claim C1, counterexample: a single event with two outbound messages (values 3 and 7)
produces records whose ids are both suffixed, 77:HH:1 and 77:HH:2; the first record does
not keep the unsuffixed base id 77:HH, contradicting the claim. -/
theorem claim_C1_counterexample :
    (parseRawTransaction (fun a => a) cexTxMulti cexBookMulti).map
        (fun rs => rs.map (fun r => r.txId))
      = Except.ok ["77:HH:1", "77:HH:2"] ∧
    "77:HH:1" ≠ stringifyTxId cexTxMulti.lt cexTxMulti.hash := by
  refine ⟨rfl, by decide⟩

/-- Claim C1 (amended): for an event whose relevant message list has length k, the
single record of a k = 1 event carries the unsuffixed base id, and for k greater than 1
every record at position i (0-based, including the first) has id base followed by a
colon and i + 1. -/
theorem claim_C1 (toBase64Address : String → String) (rawTx : RawTransaction)
    (addressBook : AddressBook) (records : List ApiTransactionExtra)
    (h : parseRawTransaction toBase64Address rawTx addressBook = Except.ok records) :
    ((relevantMsgs rawTx).length = 1 →
      records.length = 1 ∧
      ∀ r ∈ records, r.txId = stringifyTxId rawTx.lt rawTx.hash) ∧
    ((relevantMsgs rawTx).length > 1 →
      ∀ (j : Nat) (hj : j < records.length),
        (records.get ⟨j, hj⟩).txId
          = stringifyTxId rawTx.lt rawTx.hash ++ ":" ++ toString (j + 1)) := by
  have hlen := parseRawTransaction_ok_length _ _ _ _ h
  constructor
  · intro h1
    refine ⟨by omega, ?_⟩
    intro r hr
    obtain ⟨⟨j, hj⟩, hget⟩ := List.mem_iff_get.mp hr
    have hj2 : j < (relevantMsgs rawTx).length := by omega
    have hf := parseMessage_ok_fields _ _ _ _ _ _ _
      (parseRawTransaction_ok_get _ _ _ _ h j hj hj2)
    rw [hget] at hf
    rw [hf.1, if_neg (by omega)]
  · intro h1 j hj
    have hj2 : j < (relevantMsgs rawTx).length := by omega
    have hf := parseMessage_ok_fields _ _ _ _ _ _ _
      (parseRawTransaction_ok_get _ _ _ _ h j hj hj2)
    rw [hf.1, if_pos (by omega)]

/-- Claim C1, witness: the amended theorem applied to a concrete single-message event,
whose record keeps the unsuffixed base id. -/
theorem claim_C1_witness :
    parseRawTransaction (fun a => a) witTxIn witBook = Except.ok [witRecIn] ∧
    [witRecIn].length = 1 ∧
    (∀ r ∈ [witRecIn], r.txId = stringifyTxId witTxIn.lt witTxIn.hash) := by
  have hp : parseRawTransaction (fun a => a) witTxIn witBook = Except.ok [witRecIn] := by
    rfl
  have h := (claim_C1 (fun a => a) witTxIn witBook [witRecIn] hp).1 (by rfl)
  exact ⟨hp, h.1, h.2⟩

/-- Claim C2: a successful parse of one ledger event yields exactly one record per
relevant message, all sharing the timestamp now * 1000, the event fee and the base id
prefix; an event with zero relevant messages yields zero records; and a page of zero
events makes fetchTransactions return the empty sequence without error. -/
theorem claim_C2 :
    (∀ (toBase64Address : String → String) (rawTx : RawTransaction)
        (addressBook : AddressBook) (records : List ApiTransactionExtra),
      parseRawTransaction toBase64Address rawTx addressBook = Except.ok records →
      records.length = (relevantMsgs rawTx).length ∧
      ∀ r ∈ records, r.timestamp = rawTx.now * 1000 ∧ r.fee = rawTx.total_fees ∧
        ∃ s, r.txId = stringifyTxId rawTx.lt rawTx.hash ++ s) ∧
    (∀ (toBase64Address : String → String) (rawTx : RawTransaction)
        (addressBook : AddressBook), relevantMsgs rawTx = [] →
      parseRawTransaction toBase64Address rawTx addressBook = Except.ok []) ∧
    (∀ (toBase64Address : String → String)
        (service : TransactionsRequest → Except FetchError TransactionsResponse)
        (options : FetchTransactionsOptions) (data : TransactionsResponse),
      service (buildTransactionsRequest options) = Except.ok data →
      data.transactions = [] →
      fetchTransactions toBase64Address service options = Except.ok []) := by
  refine ⟨?_, ?_, ?_⟩
  · intro toB64 rawTx book records h
    have hlen := parseRawTransaction_ok_length _ _ _ _ h
    refine ⟨hlen, ?_⟩
    intro r hr
    obtain ⟨⟨j, hj⟩, hget⟩ := List.mem_iff_get.mp hr
    have hj2 : j < (relevantMsgs rawTx).length := by omega
    have hf := parseMessage_ok_fields _ _ _ _ _ _ _
      (parseRawTransaction_ok_get _ _ _ _ h j hj hj2)
    rw [hget] at hf
    obtain ⟨ht, hts, _, _, hfee, _⟩ := hf
    refine ⟨hts, hfee, ?_⟩
    rw [ht]
    by_cases hk : (relevantMsgs rawTx).length > 1
    · rw [if_pos hk]
      exact ⟨":" ++ toString (j + 1), String.append_assoc _ _ _⟩
    · rw [if_neg hk]
      exact ⟨"", (string_append_empty _).symm⟩
  · intro toB64 rawTx book h
    exact parseRawTransaction_of_no_msgs _ _ _ h
  · intro toB64 service options data hs hdata
    unfold fetchTransactions
    rw [hs]
    cases data with
    | mk txs book =>
      simp only at hdata
      subst hdata
      exact fetchTransactionsResult_empty _ _

/-- Claim C2, witness: the three parts applied to a concrete one-message event, a
concrete zero-message event, and a service returning an empty page. -/
theorem claim_C2_witness :
    (parseRawTransaction (fun a => a) witTxIn witBook = Except.ok [witRecIn] ∧
      [witRecIn].length = (relevantMsgs witTxIn).length) ∧
    (relevantMsgs witTxOut0 = [] ∧
      parseRawTransaction (fun a => a) witTxOut0 witBook = Except.ok []) ∧
    (witServiceEmptyPage (buildTransactionsRequest witOptsPos)
        = Except.ok { transactions := [], address_book := [] } ∧
      fetchTransactions (fun a => a) witServiceEmptyPage witOptsPos = Except.ok []) := by
  have hp : parseRawTransaction (fun a => a) witTxIn witBook = Except.ok [witRecIn] := by
    rfl
  have h0 : relevantMsgs witTxOut0 = [] := rfl
  have hs : witServiceEmptyPage (buildTransactionsRequest witOptsPos)
      = Except.ok { transactions := [], address_book := [] } := rfl
  exact ⟨⟨hp, (claim_C2.1 _ _ _ _ hp).1⟩,
    ⟨h0, claim_C2.2.1 (fun a => a) witTxOut0 witBook h0⟩,
    ⟨hs, claim_C2.2.2 (fun a => a) witServiceEmptyPage witOptsPos _ hs rfl⟩⟩

/-- Claim C5: an event whose inbound message has an empty source is classified outgoing
and its outbound list is the relevant message list; a non-empty source makes it incoming
with only the single inbound message relevant; and every produced record carries the
event classification. -/
theorem claim_C5 (toBase64Address : String → String) (rawTx : RawTransaction)
    (addressBook : AddressBook) :
    (rawTx.in_msg.source = "" →
      isIncomingTx rawTx = false ∧ relevantMsgs rawTx = rawTx.out_msgs) ∧
    (rawTx.in_msg.source ≠ "" →
      isIncomingTx rawTx = true ∧ relevantMsgs rawTx = [rawTx.in_msg]) ∧
    (∀ records,
      parseRawTransaction toBase64Address rawTx addressBook = Except.ok records →
      ∀ r ∈ records, r.isIncoming = isIncomingTx rawTx) := by
  refine ⟨?_, ?_, ?_⟩
  · intro h
    have hb : isIncomingTx rawTx = false := by simp [isIncomingTx, h]
    exact ⟨hb, by simp [relevantMsgs, hb]⟩
  · intro h
    have hb : isIncomingTx rawTx = true := by simp [isIncomingTx, h]
    exact ⟨hb, by simp [relevantMsgs, hb]⟩
  · intro records h r hr
    obtain ⟨⟨j, hj⟩, hget⟩ := List.mem_iff_get.mp hr
    have hlen := parseRawTransaction_ok_length _ _ _ _ h
    have hj2 : j < (relevantMsgs rawTx).length := by omega
    have hf := parseMessage_ok_fields _ _ _ _ _ _ _
      (parseRawTransaction_ok_get _ _ _ _ h j hj hj2)
    rw [hget] at hf
    exact hf.2.2.1

/-- Claim C5, witness: the classification applied to a concrete incoming event (source
A) and a concrete outgoing event (empty source). -/
theorem claim_C5_witness :
    (witTxIn.in_msg.source ≠ "" ∧ isIncomingTx witTxIn = true ∧
      relevantMsgs witTxIn = [witTxIn.in_msg]) ∧
    (witTxOut0.in_msg.source = "" ∧ isIncomingTx witTxOut0 = false ∧
      relevantMsgs witTxOut0 = witTxOut0.out_msgs) := by
  have h1 : witTxIn.in_msg.source ≠ "" := by decide
  have h2 : witTxOut0.in_msg.source = "" := rfl
  obtain ⟨ha, hb⟩ := (claim_C5 (fun a => a) witTxIn witBook).2.1 h1
  obtain ⟨hc, hd⟩ := (claim_C5 (fun a => a) witTxOut0 witBook).1 h2
  exact ⟨⟨h1, ha, hb⟩, ⟨h2, hc, hd⟩⟩

/-- Claim C6, counterexample: an incoming event whose message value is 0 produces a
record with amount 0, which is neither positive nor negative, refuting the claim that
incoming records always carry a positive amount. -/
theorem claim_C6_counterexample :
    (parseRawTransaction (fun a => a) cexTxZero witBook).map
        (fun rs => rs.map (fun r => (r.isIncoming, r.amount)))
      = Except.ok [(true, 0)] ∧
    ¬((0 : Int) > 0) ∧ ¬((0 : Int) < 0) := by
  refine ⟨rfl, by decide, by decide⟩

/-- Claim C6 (amended): the amount of every record is the message value for an incoming
event and its negation for an outgoing one; its absolute value equals the value field
exactly, and whenever the value is nonzero the amount is positive for incoming records
and negative for outgoing ones. -/
theorem claim_C6 (toBase64Address : String → String) (rawTx : RawTransaction)
    (addressBook : AddressBook) (records : List ApiTransactionExtra)
    (h : parseRawTransaction toBase64Address rawTx addressBook = Except.ok records)
    (j : Nat) (hj : j < records.length) (hj2 : j < (relevantMsgs rawTx).length) :
    (records.get ⟨j, hj⟩).amount
      = (if isIncomingTx rawTx then (((relevantMsgs rawTx).get ⟨j, hj2⟩).value : Int)
         else -(((relevantMsgs rawTx).get ⟨j, hj2⟩).value : Int)) ∧
    (records.get ⟨j, hj⟩).amount.natAbs = ((relevantMsgs rawTx).get ⟨j, hj2⟩).value ∧
    (0 < ((relevantMsgs rawTx).get ⟨j, hj2⟩).value →
      if (records.get ⟨j, hj⟩).isIncoming then 0 < (records.get ⟨j, hj⟩).amount
      else (records.get ⟨j, hj⟩).amount < 0) := by
  have hf := parseMessage_ok_fields _ _ _ _ _ _ _
    (parseRawTransaction_ok_get _ _ _ _ h j hj hj2)
  obtain ⟨_, _, hinc, hamt, _⟩ := hf
  refine ⟨hamt, ?_, ?_⟩
  · rw [hamt]
    by_cases hb : isIncomingTx rawTx
    · simp [hb]
    · simp [hb]
  · intro hv
    rw [hinc, hamt]
    by_cases hb : isIncomingTx rawTx
    · simp only [hb, if_true]
      exact Int.natCast_pos.mpr hv
    · simp only [hb, if_false]
      exact neg_lt_zero.mpr (Int.natCast_pos.mpr hv)

/-- Claim C6, witness: the amended theorem applied to a concrete incoming event of
value 5, whose record has amount 5 with absolute value 5 and positive sign. -/
theorem claim_C6_witness :
    parseRawTransaction (fun a => a) witTxIn witBook = Except.ok [witRecIn] ∧
    ([witRecIn].get ⟨0, by decide⟩).amount.natAbs
      = ((relevantMsgs witTxIn).get ⟨0, by decide⟩).value ∧
    (0 < ((relevantMsgs witTxIn).get ⟨0, by decide⟩).value →
      if ([witRecIn].get ⟨0, by decide⟩).isIncoming
      then 0 < ([witRecIn].get ⟨0, by decide⟩).amount
      else ([witRecIn].get ⟨0, by decide⟩).amount < 0) := by
  have hp : parseRawTransaction (fun a => a) witTxIn witBook = Except.ok [witRecIn] := by
    rfl
  have h := claim_C6 (fun a => a) witTxIn witBook [witRecIn] hp 0 (by decide) (by decide)
  exact ⟨hp, h.2.1, h.2.2⟩

/-- Claim C3, counterexample: with the millisecond bound -1 and an inclusive lower
bound, the request carries Math.floor(-1 / 1000) = -1, whereas truncation toward zero
gives 0; so the conversion is floor division, not truncation toward zero. -/
theorem claim_C3_counterexample :
    (buildTransactionsRequest cexOptsNeg).start_utime = some (-1) ∧
    Int.tdiv (-1) 1000 = 0 ∧
    (buildTransactionsRequest cexOptsNeg).start_utime ≠ some (Int.tdiv (-1) 1000) := by
  refine ⟨by decide, by decide, by decide⟩

/-- Claim C3 (amended): millisecond bounds are converted by floor division (toward
negative infinity, equal to truncation toward zero for non-negative inputs); a falsy
include flag shifts the lower second bound up by one and the upper down by one, and an
omitted bound stays unset. -/
theorem claim_C3 (options : FetchTransactionsOptions) :
    (options.fromTimestamp = none →
      (buildTransactionsRequest options).start_utime = none) ∧
    (options.toTimestamp = none →
      (buildTransactionsRequest options).end_utime = none) ∧
    (∀ ms : Int, options.fromTimestamp = some ms → ms ≠ 0 →
      (buildTransactionsRequest options).start_utime
        = some (msToSec ms + (if options.shouldIncludeFrom.getD false then 0 else 1))) ∧
    (∀ ms : Int, options.toTimestamp = some ms → ms ≠ 0 →
      (buildTransactionsRequest options).end_utime
        = some (msToSec ms - (if options.shouldIncludeTo.getD false then 0 else 1))) ∧
    (∀ ms : Int, 0 ≤ ms → msToSec ms = Int.tdiv ms 1000) := by
  refine ⟨?_, ?_, ?_, ?_, ?_⟩
  · intro h
    simp [buildTransactionsRequest, boundUtime, h]
  · intro h
    simp [buildTransactionsRequest, boundUtime, h]
  · intro ms h hne
    simp [buildTransactionsRequest, boundUtime, h, hne]
  · intro ms h hne
    simp only [buildTransactionsRequest, boundUtime, h, if_neg hne]
    by_cases hf : options.shouldIncludeTo.getD false
    · simp [hf]
    · rw [if_neg hf, if_neg hf, Int.sub_eq_add_neg]
  · intro ms h
    unfold msToSec
    exact Int.fdiv_eq_tdiv h (by norm_num)

/-- Claim C3, witness: the amended theorem applied to concrete options with bounds 5000
and 9000 milliseconds and exclusive flags, giving second bounds 5 + 1 and 9 - 1. -/
theorem claim_C3_witness :
    witOptsPos.fromTimestamp = some 5000 ∧
    (buildTransactionsRequest witOptsPos).start_utime
      = some (msToSec 5000 + (if witOptsPos.shouldIncludeFrom.getD false then 0 else 1)) ∧
    witOptsPos.toTimestamp = some 9000 ∧
    (buildTransactionsRequest witOptsPos).end_utime
      = some (msToSec 9000 - (if witOptsPos.shouldIncludeTo.getD false then 0 else 1)) ∧
    msToSec 5000 = Int.tdiv 5000 1000 := by
  have h := claim_C3 witOptsPos
  exact ⟨rfl, h.2.2.1 5000 rfl (by decide), rfl,
    h.2.2.2.1 9000 rfl (by decide), h.2.2.2.2 5000 (by decide)⟩

/-- Claim C10, counterexample: with both millisecond bounds equal to 0 the request
carries start_utime = 0 and end_utime = 0 as present values; they are not unset, so a
zero bound is not treated exactly as an omitted one. -/
theorem claim_C10_counterexample :
    (buildTransactionsRequest cexOptsZero).start_utime = some 0 ∧
    (buildTransactionsRequest cexOptsZero).start_utime ≠ none ∧
    (buildTransactionsRequest cexOptsZero).end_utime = some 0 ∧
    (buildTransactionsRequest cexOptsZero).end_utime ≠ none := by
  refine ⟨by decide, by decide, by decide, by decide⟩

/-- Claim C10 (amended): a millisecond bound equal to 0 short-circuits the falsy
conjunction, so no conversion and no exclusive-boundary shift is applied, but the
corresponding request member is passed as the value 0 rather than left unset. -/
theorem claim_C10 (options : FetchTransactionsOptions) :
    (options.fromTimestamp = some 0 →
      (buildTransactionsRequest options).start_utime = some 0) ∧
    (options.toTimestamp = some 0 →
      (buildTransactionsRequest options).end_utime = some 0) := by
  constructor
  · intro h
    simp [buildTransactionsRequest, boundUtime, h]
  · intro h
    simp [buildTransactionsRequest, boundUtime, h]

/-- Claim C10, witness: the amended theorem applied to the concrete options whose
bounds are 0 with exclusive flags: both request members carry the value 0. -/
theorem claim_C10_witness :
    cexOptsZero.fromTimestamp = some 0 ∧
    (buildTransactionsRequest cexOptsZero).start_utime = some 0 ∧
    cexOptsZero.toTimestamp = some 0 ∧
    (buildTransactionsRequest cexOptsZero).end_utime = some 0 := by
  have h := claim_C10 cexOptsZero
  exact ⟨rfl, h.1 rfl, rfl, h.2 rfl⟩

/-- Claim C4, counterexample: parsing an event whose endpoints are missing from the
inline address book fails with the generic type error carrying the key A, not with the
distinct lookup-error classification the claim requires. -/
theorem claim_C4_counterexample :
    parseRawTransaction (fun a => a) witTxIn []
      = Except.error (FetchError.typeError "A") ∧
    parseRawTransaction (fun a => a) witTxIn []
      ≠ Except.error (FetchError.lookupError "A") := by
  refine ⟨rfl, by decide⟩

/-- Claim C4 (amended): when a source or destination of a processed message is absent
from the inline address book, the normalization of the page fails (it never returns a
record list, so no record with a missing field is produced), but the failure is the
generic type error of the unchecked property access, not a distinct lookup error. -/
theorem claim_C4 (toBase64Address : String → String)
    (service : TransactionsRequest → Except FetchError TransactionsResponse)
    (options : FetchTransactionsOptions) (data : TransactionsResponse)
    (hs : service (buildTransactionsRequest options) = Except.ok data)
    (h : ∃ tx ∈ data.transactions, ∃ msg ∈ relevantMsgs tx,
        lookupBook data.address_book msg.source = none ∨
        lookupBook data.address_book msg.destination = none) :
    (∃ key, fetchTransactions toBase64Address service options
        = Except.error (FetchError.typeError key)) ∧
    (∀ records, fetchTransactions toBase64Address service options
        ≠ Except.ok records) := by
  obtain ⟨key, hkey⟩ := fetchTransactionsResult_error_of_bad_lookup toBase64Address data h
  have hfetch : fetchTransactions toBase64Address service options
      = Except.error (FetchError.typeError key) := by
    unfold fetchTransactions
    rw [hs]
    exact hkey
  refine ⟨⟨key, hfetch⟩, ?_⟩
  intro records hok
  rw [hfetch] at hok
  cases hok

/-- Claim C4, witness: the amended theorem applied to a concrete page holding one
incoming event and an empty inline book. -/
theorem claim_C4_witness :
    witServiceBad (buildTransactionsRequest witOptsPos) = Except.ok witPageBad ∧
    (∃ tx ∈ witPageBad.transactions, ∃ msg ∈ relevantMsgs tx,
      lookupBook witPageBad.address_book msg.source = none ∨
      lookupBook witPageBad.address_book msg.destination = none) ∧
    (∃ key, fetchTransactions (fun a => a) witServiceBad witOptsPos
      = Except.error (FetchError.typeError key)) := by
  have hs : witServiceBad (buildTransactionsRequest witOptsPos)
      = Except.ok witPageBad := rfl
  have hbad : ∃ tx ∈ witPageBad.transactions, ∃ msg ∈ relevantMsgs tx,
      lookupBook witPageBad.address_book msg.source = none ∨
      lookupBook witPageBad.address_book msg.destination = none := by
    refine ⟨witTxIn, by decide, witTxIn.in_msg, by decide, Or.inl rfl⟩
  exact ⟨hs, hbad,
    (claim_C4 (fun a => a) witServiceBad witOptsPos witPageBad hs hbad).1⟩

/-- Claim C7, counterexample: looking up an address absent from the response book makes
fixAddressFormat resolve successfully with the absent value (JavaScript undefined)
instead of failing with a lookup error. -/
theorem claim_C7_counterexample :
    fixAddressFormat witService7 "Q" = Except.ok none ∧
    fixAddressFormat witService7 "Q" ≠ Except.error (FetchError.lookupError "Q") := by
  refine ⟨rfl, by decide⟩

/-- Claim C7 (amended): fixAddressFormat returns the address-book entry keyed by
exactly the input address string; when the entry is absent it returns the absent value
without failing, rather than raising a lookup error. -/
theorem claim_C7 (service : String → Except FetchError AddressBookResponse)
    (address : String) (response : AddressBookResponse)
    (h : service address = Except.ok response) :
    fixAddressFormat service address
      = Except.ok (response.address_book.lookup address) ∧
    (∀ value, response.address_book.lookup address = some value →
      fixAddressFormat service address = Except.ok (some value)) ∧
    (response.address_book.lookup address = none →
      fixAddressFormat service address = Except.ok none ∧
      ∀ e, fixAddressFormat service address ≠ Except.error e) := by
  have hfix : fixAddressFormat service address
      = Except.ok (response.address_book.lookup address) := by
    unfold fixAddressFormat
    rw [h]
  refine ⟨hfix, ?_, ?_⟩
  · intro value hv
    rw [hfix, hv]
  · intro hn
    refine ⟨by rw [hfix, hn], ?_⟩
    intro e he
    rw [hfix, hn] at he
    cases he

/-- Claim C7, witness: the amended theorem applied to a concrete service whose book
holds the key P, which resolves to PF. -/
theorem claim_C7_witness :
    witService7 "P" = Except.ok { address_book := [("P", "PF")] } ∧
    fixAddressFormat witService7 "P" = Except.ok (some "PF") := by
  have hs : witService7 "P" = Except.ok { address_book := [("P", "PF")] } := rfl
  exact ⟨hs, (claim_C7 witService7 "P" { address_book := [("P", "PF")] } hs).2.1 "PF" rfl⟩

/-- Claim C8: with distinct input addresses, fetchAddressBook partitions them into
batches of at most 128, issuing one batch call per batch for a total of ceil(N / 128)
calls, and when the service answers every batch with a book keyed exactly by the batch,
the merged mapping holds exactly the N input addresses as keys. -/
theorem claim_C8 (service : List String → Except FetchError AddressBook)
    (addresses : List String) (hnd : addresses.Nodup) :
    (split addresses ADDRESS_BOOK_CHUNK_SIZE).length
      = (addresses.length + (ADDRESS_BOOK_CHUNK_SIZE - 1)) / ADDRESS_BOOK_CHUNK_SIZE ∧
    ((∀ chunk ∈ split addresses ADDRESS_BOOK_CHUNK_SIZE,
        ∃ book, service chunk = Except.ok book ∧ book.map Prod.fst = chunk) →
      ∃ merged, fetchAddressBook service addresses = Except.ok merged ∧
        merged.map Prod.fst = addresses ∧ merged.length = addresses.length) := by
  constructor
  · exact split_length 127 addresses
  · intro hall
    obtain ⟨books, hbooks⟩ := mapExcept_ok_of_forall service _
      (fun c hc => (hall c hc).elim (fun b hb => ⟨b, hb.1⟩))
    have hf2 := mapExcept_ok_forall₂ _ _ _ hbooks
    have hkeys : List.Forall₂ (fun c b => List.map Prod.fst b = c)
        (split addresses ADDRESS_BOOK_CHUNK_SIZE) books := by
      rw [List.forall₂_iff_get]
      have hget := List.forall₂_iff_get.mp hf2
      refine ⟨hget.1, ?_⟩
      intro i h1 h2
      obtain ⟨book2, hb2, hk2⟩ := hall
        ((split addresses ADDRESS_BOOK_CHUNK_SIZE).get ⟨i, h1⟩) (List.get_mem _ _ _)
      have hsi := hget.2 i h1 h2
      rw [hb2] at hsi
      injection hsi with hbi
      rw [← hbi]
      exact hk2
    have hjoinkeys : books.flatten.map Prod.fst = addresses := by
      rw [List.map_flatten, forall₂_keys_eq hkeys,
        split_flatten ADDRESS_BOOK_CHUNK_SIZE (by decide) addresses]
    have hnodup : (([] ++ books.flatten).map Prod.fst).Nodup := by
      simpa [hjoinkeys] using hnd
    refine ⟨books.foldl objAssign [], ?_, ?_, ?_⟩
    · unfold fetchAddressBook
      rw [hbooks]
    · rw [foldl_objAssign books [] hnodup]
      simpa using hjoinkeys
    · rw [foldl_objAssign books [] hnodup]
      have hcl := congrArg List.length hjoinkeys
      rw [List.length_map] at hcl
      simpa using hcl

/-- Claim C8, witness: the theorem applied to three concrete distinct addresses and a
service answering each batch with one entry per address: one batch call and a merged
book of exactly three keys. -/
theorem claim_C8_witness :
    witAddrs.Nodup ∧
    (split witAddrs ADDRESS_BOOK_CHUNK_SIZE).length
      = (witAddrs.length + (ADDRESS_BOOK_CHUNK_SIZE - 1)) / ADDRESS_BOOK_CHUNK_SIZE ∧
    (∃ merged, fetchAddressBook witBookService witAddrs = Except.ok merged ∧
      merged.map Prod.fst = witAddrs ∧ merged.length = witAddrs.length) := by
  have hnd : witAddrs.Nodup := by decide
  have h := claim_C8 witBookService witAddrs hnd
  refine ⟨hnd, h.1, h.2 ?_⟩
  intro chunk hc
  refine ⟨chunk.map (fun a => (a, { user_friendly := a ++ "F" })), rfl, ?_⟩
  clear hc
  induction chunk with
  | nil => rfl
  | cons x xs ih =>
    simp only [List.map_cons] at ih ⊢
    rw [List.map_map] at ih ⊢
    rw [ih]

/-- Claim C9: if any one batch call of fetchAddressBook fails, the whole operation
fails with an error produced by a failing batch call, and no merged result is
returned. -/
theorem claim_C9 (service : List String → Except FetchError AddressBook)
    (addresses : List String)
    (h : ∃ chunk ∈ split addresses ADDRESS_BOOK_CHUNK_SIZE, ∃ e,
        service chunk = Except.error e) :
    ∃ e, fetchAddressBook service addresses = Except.error e ∧
      (∃ chunk ∈ split addresses ADDRESS_BOOK_CHUNK_SIZE,
        service chunk = Except.error e) ∧
      ∀ merged, fetchAddressBook service addresses ≠ Except.ok merged := by
  obtain ⟨chunk, hc, e0, he0⟩ := h
  cases hm : mapExcept service (split addresses ADDRESS_BOOK_CHUNK_SIZE) with
  | ok books =>
    exfalso
    have hf := mapExcept_ok_forall₂ _ _ _ hm
    obtain ⟨b, hb⟩ := forall₂_mem_left hf chunk hc
    rw [he0] at hb
    cases hb
  | error e =>
    obtain ⟨c2, hc2, hce⟩ := mapExcept_error_mem _ _ _ hm
    have herr : fetchAddressBook service addresses = Except.error e := by
      unfold fetchAddressBook
      rw [hm]
    refine ⟨e, herr, ⟨c2, hc2, hce⟩, ?_⟩
    intro merged hok
    rw [herr] at hok
    cases hok

/-- Claim C9, witness: the theorem applied to one concrete address and a service that
fails its single batch with a transport error. -/
theorem claim_C9_witness :
    (∃ chunk ∈ split witAddrs9 ADDRESS_BOOK_CHUNK_SIZE, ∃ e,
      cexFailingService chunk = Except.error e) ∧
    (∃ e, fetchAddressBook cexFailingService witAddrs9 = Except.error e ∧
      (∃ chunk ∈ split witAddrs9 ADDRESS_BOOK_CHUNK_SIZE,
        cexFailingService chunk = Except.error e) ∧
      ∀ merged, fetchAddressBook cexFailingService witAddrs9 ≠ Except.ok merged) := by
  have hsplit : split witAddrs9 ADDRESS_BOOK_CHUNK_SIZE = [witAddrs9] := by
    rw [split_cons witAddrs9 ADDRESS_BOOK_CHUNK_SIZE (by decide) (by decide)]
    rw [show witAddrs9.drop ADDRESS_BOOK_CHUNK_SIZE = [] from rfl, split_nil]
    rfl
  have hyp : ∃ chunk ∈ split witAddrs9 ADDRESS_BOOK_CHUNK_SIZE, ∃ e,
      cexFailingService chunk = Except.error e := by
    rw [hsplit]
    exact ⟨witAddrs9, List.mem_singleton.mpr rfl, FetchError.transportError "down", rfl⟩
  exact ⟨hyp, claim_C9 cexFailingService witAddrs9 hyp⟩
